import Mathlib

/-!
Shallow embedding of the yt-dlp-tasker job runner (src/main.rs, src/serde_helper.rs).

The Rust program is a periodic job runner: a `Config` carries profiles,
downloads and remote job URLs; `TryFrom<TaskSource> for Tasks` validates a
raw source into a `Tasks` value (duplicate profile names and dangling
profile references are rejected); `Tasks::run_all` executes every
`(download, profile)` pair, accumulating errors without stopping;
`download` builds the external command invocation; the `main` loop computes
the next-cycle wait with a 120 second floor; `vec_or_one` is the serde
helper normalising scalar-or-list fields.

External effects (process execution, HTTP fetching and body parsing) are
modelled by explicit oracles passed as function arguments; machine
integers are modelled as `Nat` with explicit `% 2 ^ 64` where Rust's u64
arithmetic can wrap.
-/

namespace YtDlpTasker

/-- Rust struct `Profile` from src/main.rs: a named invocation template.
`archive` defaults to true at the serde level; here the field is always
explicit. -/
structure Profile where
  name : String
  args : List String
  archive : Bool
deriving DecidableEq, Repr

/-- Rust struct `Download` from src/main.rs: a named download target with
its profile-name list and URL list (both already normalised to lists by
`vec_or_one`). -/
structure Download where
  name : String
  profile : List String
  url : List String
deriving DecidableEq, Repr

/-- Rust struct `TaskSource` from src/main.rs: the raw pair of profile and
download lists, parsed either from local configuration or from one remote
response body. -/
structure TaskSource where
  profile : List Profile
  download : List Download
deriving DecidableEq, Repr

/-- Model of `HashMap<String, Profile>`: an association list whose keys are
kept unique by the construction in `Tasks.tryFrom`. -/
abbrev ProfileMap := List (String × Profile)

/-- Model of `HashMap::get`: first entry with a matching key. -/
def hmGet (m : ProfileMap) (k : String) : Option Profile :=
  match m with
  | [] => none
  | (k2, v) :: rest => if k2 = k then some v else hmGet rest k

/-- Model of `HashMap::insert`: replaces an existing binding and returns the
old value, otherwise appends the new binding and returns `none`. -/
def hmInsert (m : ProfileMap) (k : String) (v : Profile) :
    ProfileMap × Option Profile :=
  match m with
  | [] => ([(k, v)], none)
  | (k2, v2) :: rest =>
    if k2 = k then ((k2, v) :: rest, some v2)
    else
      let r := hmInsert rest k v
      ((k2, v2) :: r.1, r.2)

/-- Key list of a profile map. -/
def hmKeys (m : ProfileMap) : List String := m.map Prod.fst

/-- Rust struct `Tasks` from src/main.rs: the validated form of a
`TaskSource`. -/
structure Tasks where
  profiles : ProfileMap
  download : List Download
deriving DecidableEq, Repr

/-- Structured form of the two `anyhow` errors produced by
`TryFrom<TaskSource> for Tasks`: `duplicate profile name {name} at config`
and `can not find profile {profileName} at download {downloadName}`. -/
inductive ResolveError
  | duplicateProfile (name : String)
  | unknownProfileReference (profileName : String) (downloadName : String)
deriving DecidableEq, Repr

/-- First loop of `try_from` in src/main.rs: fold the profile list into the
hash map, bailing with `duplicateProfile` when `insert` returns an old
value. -/
def buildProfiles (ps : List Profile) (acc : ProfileMap) :
    Except ResolveError ProfileMap :=
  match ps with
  | [] => .ok acc
  | p :: rest =>
    let r := hmInsert acc p.name p
    match r.2 with
    | some _ => .error (.duplicateProfile p.name)
    | none => buildProfiles rest r.1

/-- Inner loop of the reference check in `try_from`: every name in one
download's profile list must be a key of the map. -/
def checkDownloadRefs (m : ProfileMap) (downloadName : String)
    (names : List String) : Except ResolveError Unit :=
  match names with
  | [] => .ok ()
  | n :: rest =>
    match hmGet m n with
    | none => .error (.unknownProfileReference n downloadName)
    | some _ => checkDownloadRefs m downloadName rest

/-- Outer loop of the reference check in `try_from` over all downloads. -/
def checkRefs (m : ProfileMap) (ds : List Download) :
    Except ResolveError Unit :=
  match ds with
  | [] => .ok ()
  | d :: rest =>
    match checkDownloadRefs m d.name d.profile with
    | .error e => .error e
    | .ok _ => checkRefs m rest

/-- Model of `TryFrom<TaskSource> for Tasks` (src/main.rs lines 118-152):
build the profile map rejecting duplicates, check all profile references,
then return the validated `Tasks` with the download list unchanged. -/
def Tasks.tryFrom (value : TaskSource) : Except ResolveError Tasks :=
  match buildProfiles value.profile [] with
  | .error e => .error e
  | .ok hash_profiles =>
    match checkRefs hash_profiles value.download with
    | .error e => .error e
    | .ok _ => .ok { profiles := hash_profiles, download := value.download }

/-- Model of `std::process::Command`: a binary name plus the argument list
accumulated so far. -/
structure Command where
  bin : String
  args : List String
deriving DecidableEq, Repr

/-- Model of `Command::new`. -/
def Command.new (bin : String) : Command := { bin := bin, args := [] }

/-- Model of `Command::args`: appends to the accumulated argument list. -/
def Command.addArgs (c : Command) (xs : List String) : Command :=
  { c with args := c.args ++ xs }

/-- Archive file path built in `download` (src/main.rs line 251):
`archives/{download.name}-{profile.name}.txt`. -/
def archivePath (d : Download) (p : Profile) : String :=
  "archives/" ++ d.name ++ "-" ++ p.name ++ ".txt"

/-- Argument assembly of `download` (src/main.rs lines 245-255): start from
`Command::new(bin_name)`, add the archive flag pair when `profile.archive`
is set, then `profile.args`, then `download.url`, as successive
`cmd.args(..)` calls. -/
def downloadCommand (bin_name : String) (d : Download) (p : Profile) :
    Command :=
  let cmd := Command.new bin_name
  let cmd := if p.archive
    then cmd.addArgs ["--download-archive", archivePath d p]
    else cmd
  let cmd := cmd.addArgs p.args
  cmd.addArgs d.url

/-- Outcome of one external-process invocation, supplied by an oracle: the
launch can fail (`cmd.status()` returns an error) or the process exits with
some status code. -/
inductive ExecOutcome
  | launchFailure
  | exitStatus (code : Nat)
deriving DecidableEq, Repr

/-- Structured form of the failures of `download` after command assembly:
`failed to execute command` and `command exit with error status`. -/
inductive ExecError
  | launchError
  | nonZeroExit (code : Nat)
deriving DecidableEq, Repr

/-- Tail of `download` (src/main.rs lines 257-261): launch failure is an
error, a non-zero exit status is an error, exit status 0 succeeds. -/
def runJob (outcome : ExecOutcome) : Except ExecError Unit :=
  match outcome with
  | .launchFailure => .error .launchError
  | .exitStatus c => if c = 0 then .ok () else .error (.nonZeroExit c)

/-- One entry of the error accumulator of `run_all`: the context string
`Falied to process {downloadName} with profile {profileName}` wrapping the
job error. -/
structure JobError where
  downloadName : String
  profileName : String
  error : ExecError
deriving DecidableEq, Repr

/-- Inner loop of `run_all` over one download's profile-name list
(src/main.rs lines 94-107): look the profile up (`unwrap`, modelled as
`none` on failure), run the job via the exec oracle, and push a
contextualised error on failure. Returns the trace of executed
`(download, profile)` jobs and the error accumulator. -/
def runProfileList (profiles : ProfileMap)
    (exec : Download → Profile → ExecOutcome) (d : Download)
    (names : List String) :
    Option (List (Download × Profile) × List JobError) :=
  match names with
  | [] => some ([], [])
  | n :: rest =>
    match hmGet profiles n with
    | none => none
    | some p =>
      match runProfileList profiles exec d rest with
      | none => none
      | some r =>
        match runJob (exec d p) with
        | .ok _ => some ((d, p) :: r.1, r.2)
        | .error e =>
          some ((d, p) :: r.1, ⟨d.name, p.name, e⟩ :: r.2)

/-- Outer loop of `run_all` over the download list (src/main.rs
lines 93-108). -/
def runDownloadList (profiles : ProfileMap)
    (exec : Download → Profile → ExecOutcome) (ds : List Download) :
    Option (List (Download × Profile) × List JobError) :=
  match ds with
  | [] => some ([], [])
  | d :: rest =>
    match runProfileList profiles exec d d.profile with
    | none => none
    | some r1 =>
      match runDownloadList profiles exec rest with
      | none => none
      | some r2 => some (r1.1 ++ r2.1, r1.2 ++ r2.2)

/-- Model of `Tasks::run_all` (src/main.rs lines 90-115), with external
process execution abstracted by the `exec` oracle. The result is `none`
exactly when some profile lookup fails (the `unwrap` panic); otherwise it
is the ordered job trace together with the accumulated errors, which the
code prints once inline and once as the end-of-run summary. -/
def Tasks.runAll (t : Tasks) (exec : Download → Profile → ExecOutcome) :
    Option (List (Download × Profile) × List JobError) :=
  runDownloadList t.profiles exec t.download

/-- Declarative job list of one download: its profile names resolved
through the map, in order, paired with the download. -/
def jobsOfNames (profiles : ProfileMap) (d : Download)
    (names : List String) : List (Download × Profile) :=
  names.filterMap (fun n => (hmGet profiles n).map (fun p => (d, p)))

/-- Declarative job list of a `Tasks` value: downloads in declaration
order, and within one download its profiles in declaration order. -/
def expectedJobs (t : Tasks) : List (Download × Profile) :=
  t.download.flatMap (fun d => jobsOfNames t.profiles d d.profile)

/-- Contextualised error of a single job under the exec oracle, if it
fails. -/
def jobResultError (exec : Download → Profile → ExecOutcome)
    (j : Download × Profile) : Option JobError :=
  match runJob (exec j.1 j.2) with
  | .ok _ => none
  | .error e => some ⟨j.1.name, j.2.name, e⟩

/-- Declarative error accumulator: one contextualised entry per failing
job, in job order. -/
def expectedErrors (t : Tasks)
    (exec : Download → Profile → ExecOutcome) : List JobError :=
  (expectedJobs t).filterMap (jobResultError exec)

/-- Failure of the remote-fetch pipeline before resolution (src/main.rs
lines 224-232): the request send, the body read, or the TOML parse. -/
inductive FetchError
  | sendFailed
  | bodyFailed
  | parseFailed
deriving DecidableEq, Repr

/-- Failure of `get_remote_job`: a fetch-pipeline failure or a resolution
failure of the parsed source. -/
inductive RemoteError
  | fetch (e : FetchError)
  | resolve (e : ResolveError)
deriving DecidableEq, Repr

/-- Model of `get_remote_job` (src/main.rs lines 224-234): the HTTP GET,
body read and TOML parse are abstracted into the `fetch` oracle producing a
`TaskSource` or a `FetchError`; the parsed source then goes through
`Tasks.tryFrom`. -/
def getRemoteJob (fetch : String → Except FetchError TaskSource)
    (url : String) : Except RemoteError Tasks :=
  match fetch url with
  | .error e => .error (.fetch e)
  | .ok src =>
    match Tasks.tryFrom src with
    | .error e => .error (.resolve e)
    | .ok t => .ok t

/-- Model of the `remote_jobs` loop in `run` (src/main.rs lines 194-208):
`filter_map` over the URL list keeping `(url, tasks)` pairs for successes,
and logging `(url, error)` for each failure (the context
`failed to load remote job at {url}`). Returns the kept pairs and the log,
both in URL declaration order. -/
def remoteJobs (fetch : String → Except FetchError TaskSource)
    (urls : List String) :
    List (String × Tasks) × List (String × RemoteError) :=
  match urls with
  | [] => ([], [])
  | url :: rest =>
    let r := remoteJobs fetch rest
    match getRemoteJob fetch url with
    | .ok t => ((url, t) :: r.1, r.2)
    | .error e => (r.1, (url, e) :: r.2)

/-- 2 ^ 64, the u64 modulus. -/
def U64_MOD : Nat := 2 ^ 64

/-- Wrapping u64 subtraction, the release-build semantics of `a - b` on
`u64` in Rust (a debug build panics on the same underflow). -/
def u64Sub (a b : Nat) : Nat :=
  (a % U64_MOD + U64_MOD - b % U64_MOD) % U64_MOD

/-- Wait computation of the scheduler loop in `main` (src/main.rs
line 170): `(intervall - duration.as_secs()).max(120)` with both operands
`u64`. -/
def waitTime (intervall elapsedSecs : Nat) : Nat :=
  Nat.max (u64Sub intervall elapsedSecs) 120

/-- Input handed to the `vec_or_one` deserializer by a self-describing
format: either a single scalar value or a sequence. -/
inductive SerdeInput (T : Type)
  | scalar (value : T)
  | seq (values : List T)
deriving DecidableEq, Repr

/-- Rust enum `EVecOrOne` from src/serde_helper.rs. -/
inductive EVecOrOne (T : Type)
  | one (value : T)
  | vec (values : List T)
deriving DecidableEq, Repr

/-- Untagged deserialization of `EVecOrOne<T>`: a scalar input matches the
`One` variant, a sequence input matches the `Vec` variant. -/
def deserializeEVecOrOne {T : Type} (input : SerdeInput T) : EVecOrOne T :=
  match input with
  | .scalar v => .one v
  | .seq l => .vec l

/-- Core of `vec_or_one` (src/serde_helper.rs lines 17-27): normalise the
enum to a list and reject the empty list. -/
def vecOrOneCore {T : Type} (value : EVecOrOne T) :
    Except String (List T) :=
  let vec := match value with
    | .vec v => v
    | .one x => [x]
  if vec.isEmpty then
    .error "cannot deserialize from an empty sequence"
  else .ok vec

/-- Model of the `vec_or_one` deserializer from src/serde_helper.rs: the
untagged enum deserialization followed by normalisation. -/
def vec_or_one {T : Type} (input : SerdeInput T) : Except String (List T) :=
  vecOrOneCore (deserializeEVecOrOne input)

/-- Parsing of the `remote_job` field of `Config` (src/main.rs lines 60-61,
`#[serde(default, deserialize_with = "vec_or_one")]`): a missing field
takes the serde default `Vec::default()` (the empty list); a present field
goes through `vec_or_one`. -/
def parseRemoteJobField (field : Option (SerdeInput String)) :
    Except String (List String) :=
  match field with
  | none => .ok []
  | some input => vec_or_one input

/-! Helper lemmas about the association-list model of the profile map. -/

theorem hmGet_isSome_iff (m : ProfileMap) (k : String) :
    (hmGet m k).isSome ↔ k ∈ hmKeys m := by
  induction m with
  | nil => simp [hmGet, hmKeys]
  | cons kv rest ih =>
    obtain ⟨k2, v⟩ := kv
    by_cases h : k2 = k
    · simp [hmGet, hmKeys, h]
    · simp [hmGet, hmKeys, h, ih, Ne.symm h]

theorem hmGet_eq_none_iff (m : ProfileMap) (k : String) :
    hmGet m k = none ↔ k ∉ hmKeys m := by
  rw [← hmGet_isSome_iff]
  cases hmGet m k <;> simp

theorem hmInsert_snd (m : ProfileMap) (k : String) (v : Profile) :
    (hmInsert m k v).2 = hmGet m k := by
  induction m with
  | nil => rfl
  | cons kv rest ih =>
    obtain ⟨k2, v2⟩ := kv
    by_cases h : k2 = k <;> simp [hmInsert, hmGet, h, ih]

theorem hmInsert_keys_of_none (m : ProfileMap) (k : String) (v : Profile)
    (h : hmGet m k = none) :
    hmKeys (hmInsert m k v).1 = hmKeys m ++ [k] := by
  induction m with
  | nil => rfl
  | cons kv rest ih =>
    obtain ⟨k2, v2⟩ := kv
    by_cases hk : k2 = k
    · simp [hmGet, hk] at h
    · simp only [hmGet, if_neg hk] at h
      have ihh := ih h
      simp only [hmKeys] at ihh ⊢
      simp [hmInsert, hk, ihh]

/-! Helper lemmas about `buildProfiles`. -/

theorem buildProfiles_ok_keys (ps : List Profile) :
    ∀ (acc m : ProfileMap), buildProfiles ps acc = .ok m →
    hmKeys m = hmKeys acc ++ ps.map Profile.name := by
  induction ps with
  | nil =>
    intro acc m h
    simp only [buildProfiles, Except.ok.injEq] at h
    simp [h]
  | cons p rest ih =>
    intro acc m h
    simp only [buildProfiles, hmInsert_snd] at h
    split at h
    · exact absurd h (by simp)
    · rename_i hg
      have hkeys := hmInsert_keys_of_none acc p.name p hg
      rw [ih _ m h, hkeys, List.append_assoc]
      simp

theorem buildProfiles_ok_nodup (ps : List Profile) :
    ∀ (acc m : ProfileMap), (hmKeys acc).Nodup →
    buildProfiles ps acc = .ok m →
    (hmKeys acc ++ ps.map Profile.name).Nodup := by
  induction ps with
  | nil =>
    intro acc m hnd _
    simpa using hnd
  | cons p rest ih =>
    intro acc m hnd h
    simp only [buildProfiles, hmInsert_snd] at h
    split at h
    · exact absurd h (by simp)
    · rename_i hg
      have hnotmem : p.name ∉ hmKeys acc := (hmGet_eq_none_iff acc p.name).mp hg
      have hkeys := hmInsert_keys_of_none acc p.name p hg
      have hnd2 : (hmKeys (hmInsert acc p.name p).1).Nodup := by
        rw [hkeys]
        refine List.Nodup.append hnd (List.nodup_singleton _) ?_
        intro a ha hb
        rw [List.mem_singleton] at hb
        exact hnotmem (hb ▸ ha)
      have hrec := ih _ m hnd2 h
      rw [hkeys, List.append_assoc] at hrec
      simpa using hrec

theorem buildProfiles_ok_of_nodup (ps : List Profile) :
    ∀ acc : ProfileMap, (hmKeys acc ++ ps.map Profile.name).Nodup →
    ∃ m, buildProfiles ps acc = .ok m := by
  induction ps with
  | nil =>
    intro acc _
    exact ⟨acc, rfl⟩
  | cons p rest ih =>
    intro acc h
    simp only [List.map_cons] at h
    have hdisj := (List.nodup_append.mp h).2.2
    have hnotmem : p.name ∉ hmKeys acc :=
      fun hmem => hdisj hmem (List.mem_cons_self _ _)
    have hg : hmGet acc p.name = none := (hmGet_eq_none_iff _ _).mpr hnotmem
    have h2 : (hmKeys (hmInsert acc p.name p).1 ++ rest.map Profile.name).Nodup := by
      rw [hmInsert_keys_of_none acc p.name p hg, List.append_assoc]
      simpa using h
    obtain ⟨m, hm⟩ := ih _ h2
    refine ⟨m, ?_⟩
    simp only [buildProfiles, hmInsert_snd, hg]
    exact hm

theorem buildProfiles_error_shape (ps : List Profile) :
    ∀ (acc : ProfileMap) (e : ResolveError),
    buildProfiles ps acc = .error e →
    ∃ n, e = .duplicateProfile n ∧
      2 ≤ (hmKeys acc ++ ps.map Profile.name).count n := by
  induction ps with
  | nil =>
    intro acc e h
    exact absurd h (by simp [buildProfiles])
  | cons p rest ih =>
    intro acc e h
    simp only [buildProfiles, hmInsert_snd] at h
    split at h
    · rename_i q hg
      have he : ResolveError.duplicateProfile p.name = e := by
        injection h
      refine ⟨p.name, he.symm, ?_⟩
      have hmem : p.name ∈ hmKeys acc := by
        rw [← hmGet_isSome_iff, hg]
        rfl
      have h1 : 0 < (hmKeys acc).count p.name := List.count_pos_iff.mpr hmem
      simp only [List.map_cons, List.count_append, List.count_cons_self]
      omega
    · rename_i hg
      obtain ⟨n, hn, hcount⟩ := ih _ e h
      refine ⟨n, hn, ?_⟩
      rw [hmInsert_keys_of_none acc p.name p hg] at hcount
      simp only [List.count_append, List.map_cons] at hcount ⊢
      rw [List.count_cons]
      rw [List.count_singleton] at hcount
      omega

/-! Helper lemmas about the reference check. -/

theorem checkDownloadRefs_ok_iff (m : ProfileMap) (dn : String)
    (names : List String) :
    checkDownloadRefs m dn names = .ok () ↔
      ∀ n ∈ names, (hmGet m n).isSome := by
  induction names with
  | nil => simp [checkDownloadRefs]
  | cons n rest ih =>
    cases hg : hmGet m n with
    | none => simp [checkDownloadRefs, hg]
    | some p => simp [checkDownloadRefs, hg, ih]

theorem checkDownloadRefs_error_shape (m : ProfileMap) (dn : String)
    (names : List String) :
    ∀ e, checkDownloadRefs m dn names = .error e →
    ∃ n, e = .unknownProfileReference n dn ∧ n ∈ names ∧
      hmGet m n = none := by
  induction names with
  | nil =>
    intro e h
    exact absurd h (by simp [checkDownloadRefs])
  | cons n rest ih =>
    intro e h
    simp only [checkDownloadRefs] at h
    split at h
    · rename_i hg
      have he : ResolveError.unknownProfileReference n dn = e := by
        injection h
      exact ⟨n, he.symm, List.mem_cons_self _ _, hg⟩
    · obtain ⟨n2, he, hmem, hg2⟩ := ih e h
      exact ⟨n2, he, List.mem_cons_of_mem _ hmem, hg2⟩

theorem checkRefs_ok_iff (m : ProfileMap) (ds : List Download) :
    checkRefs m ds = .ok () ↔
      ∀ d ∈ ds, ∀ n ∈ d.profile, (hmGet m n).isSome := by
  induction ds with
  | nil => simp [checkRefs]
  | cons d rest ih =>
    cases hc : checkDownloadRefs m d.name d.profile with
    | error e =>
      obtain ⟨n, _, hmem, hg⟩ := checkDownloadRefs_error_shape m d.name d.profile e hc
      simp only [checkRefs, hc]
      constructor
      · intro h
        exact absurd h (by simp)
      · intro h
        have := h d (List.mem_cons_self _ _) n hmem
        rw [hg] at this
        exact absurd this (by simp)
    | ok u =>
      cases u
      have hall := (checkDownloadRefs_ok_iff m d.name d.profile).mp hc
      simp only [checkRefs, hc]
      constructor
      · intro h d2 hd2 n hn
        rcases List.mem_cons.mp hd2 with h2 | h2
        · subst h2
          exact hall n hn
        · exact (ih.mp h) d2 h2 n hn
      · intro h
        exact ih.mpr (fun d2 h2 => h d2 (List.mem_cons_of_mem _ h2))

theorem checkRefs_error_shape (m : ProfileMap) (ds : List Download) :
    ∀ e, checkRefs m ds = .error e →
    ∃ d ∈ ds, ∃ n, e = .unknownProfileReference n d.name ∧
      n ∈ d.profile ∧ hmGet m n = none := by
  induction ds with
  | nil =>
    intro e h
    exact absurd h (by simp [checkRefs])
  | cons d rest ih =>
    intro e h
    simp only [checkRefs] at h
    split at h
    · rename_i e2 hc
      have he : e2 = e := by injection h
      obtain ⟨n, hn, hmem, hg⟩ :=
        checkDownloadRefs_error_shape m d.name d.profile e2 hc
      exact ⟨d, List.mem_cons_self _ _, n, he ▸ hn, hmem, hg⟩
    · obtain ⟨d2, hd2, n, hn, hmem, hg⟩ := ih e h
      exact ⟨d2, List.mem_cons_of_mem _ hd2, n, hn, hmem, hg⟩

/-- Decomposition of a successful `Tasks.tryFrom`. -/
theorem tryFrom_ok_elim (value : TaskSource) (t : Tasks)
    (h : Tasks.tryFrom value = .ok t) :
    buildProfiles value.profile [] = .ok t.profiles ∧
    checkRefs t.profiles value.download = .ok () ∧
    t.download = value.download := by
  unfold Tasks.tryFrom at h
  split at h
  · exact absurd h (by simp)
  · rename_i m hm
    split at h
    · exact absurd h (by simp)
    · rename_i u hc
      cases u
      have ht : ({ profiles := m, download := value.download } : Tasks) = t := by
        injection h
      subst ht
      exact ⟨hm, hc, rfl⟩

/-! Helper lemmas about `runAll`. -/

theorem runProfileList_eq (profiles : ProfileMap)
    (exec : Download → Profile → ExecOutcome) (d : Download)
    (names : List String)
    (h : ∀ n ∈ names, (hmGet profiles n).isSome) :
    runProfileList profiles exec d names =
      some (jobsOfNames profiles d names,
        (jobsOfNames profiles d names).filterMap (jobResultError exec)) := by
  induction names with
  | nil => rfl
  | cons n rest ih =>
    obtain ⟨p, hp⟩ :=
      Option.isSome_iff_exists.mp (h n (List.mem_cons_self _ _))
    have ihh := ih (fun n2 h2 => h n2 (List.mem_cons_of_mem _ h2))
    cases hr : runJob (exec d p) with
    | ok u =>
      cases u
      simp [runProfileList, hp, ihh, jobsOfNames, jobResultError, hr,
        List.filterMap_cons]
    | error e =>
      simp [runProfileList, hp, ihh, jobsOfNames, jobResultError, hr,
        List.filterMap_cons]

theorem runDownloadList_eq (profiles : ProfileMap)
    (exec : Download → Profile → ExecOutcome) (ds : List Download)
    (h : ∀ d ∈ ds, ∀ n ∈ d.profile, (hmGet profiles n).isSome) :
    runDownloadList profiles exec ds =
      some (ds.flatMap (fun d => jobsOfNames profiles d d.profile),
        (ds.flatMap (fun d => jobsOfNames profiles d d.profile)).filterMap
          (jobResultError exec)) := by
  induction ds with
  | nil => rfl
  | cons d rest ih =>
    have h1 :=
      runProfileList_eq profiles exec d d.profile (h d (List.mem_cons_self _ _))
    have ihh := ih (fun d2 h2 => h d2 (List.mem_cons_of_mem _ h2))
    simp [runDownloadList, h1, ihh, List.filterMap_append]

/-! Concrete data used by witnesses and counterexamples. -/

/-- Sample profile with the archive flag set. -/
def profileAudio : Profile := { name := "audio", args := ["-x"], archive := true }

/-- Sample profile without the archive flag. -/
def profileVideo : Profile := { name := "video", args := [], archive := false }

/-- Sample download referencing both sample profiles. -/
def downloadNews : Download :=
  { name := "news", profile := ["audio", "video"],
    url := ["https://example.com/feed"] }

/-- Sample valid task source. -/
def srcGood : TaskSource :=
  { profile := [profileAudio, profileVideo], download := [downloadNews] }

/-- Resolved form of `srcGood`. -/
def tasksGood : Tasks :=
  { profiles := [("audio", profileAudio), ("video", profileVideo)],
    download := [downloadNews] }

/-- Sample profile named "a". -/
def profileDupA : Profile := { name := "a", args := [], archive := true }

/-- Second sample profile also named "a". -/
def profileDupA2 : Profile := { name := "a", args := ["-x"], archive := true }

/-- Source with a duplicate profile name. -/
def srcDup : TaskSource :=
  { profile := [profileDupA, profileDupA2], download := [] }

/-- Download referencing the undeclared profile "b". -/
def downloadDangling : Download :=
  { name := "d", profile := ["b"], url := ["u"] }

/-- Source with both a duplicate profile name and a dangling profile
reference. -/
def srcDupDangling : TaskSource :=
  { profile := [profileDupA, profileDupA2], download := [downloadDangling] }

/-- Source with a dangling profile reference and no duplicate names. -/
def srcDangling : TaskSource :=
  { profile := [profileAudio], download := [downloadDangling] }

/-- Predicate over resolution results: is the result an
`unknownProfileReference` error? -/
def isUnknownRefError (r : Except ResolveError Tasks) : Bool :=
  match r with
  | .error (.unknownProfileReference _ _) => true
  | _ => false

/-- Exec oracle that fails exactly the jobs run under the "audio" profile
with exit status 1. -/
def execFailAudio : Download → Profile → ExecOutcome :=
  fun _ p => if p.name = "audio" then .exitStatus 1 else .exitStatus 0

/-- Fetch oracle with one good URL and parse failures elsewhere. -/
def fetchDemo : String → Except FetchError TaskSource :=
  fun url => if url = "http://good" then .ok srcGood else .error .parseFailed

/-! Claim theorems. -/

/-- C1 (code evaluation at the claim's own input): the scheduler wait in
`main` is `(intervall - duration.as_secs()).max(120)` on `u64`, so for
`interval = 100` and `elapsed = 150` the subtraction wraps (release
semantics; a debug build panics), and the computed wait is `2 ^ 64 - 50`,
not the `120` floor the claim states. -/
theorem wait_time_underflow_at_100_150 :
    waitTime 100 150 = 2 ^ 64 - 50 ∧ waitTime 100 150 ≠ 120 := by
  constructor
  · rfl
  · decide

/-- C2: every `Tasks` value produced by `Tasks.tryFrom` satisfies the
resolution invariant — every profile name in every download's profile list
is a key of the profile map — and consequently the per-job profile lookup
in `run_all` always succeeds: `runAll` never returns `none`, i.e. the
`unwrap` failure branch is unreachable. -/
theorem resolved_tasks_lookup_total (value : TaskSource) (t : Tasks)
    (h : Tasks.tryFrom value = .ok t) :
    (∀ d ∈ t.download, ∀ n ∈ d.profile, (hmGet t.profiles n).isSome) ∧
    ∀ exec, (t.runAll exec).isSome := by
  obtain ⟨_, hcr, hdl⟩ := tryFrom_ok_elim value t h
  have hinv : ∀ d ∈ t.download, ∀ n ∈ d.profile,
      (hmGet t.profiles n).isSome := by
    rw [hdl]
    exact (checkRefs_ok_iff _ _).mp hcr
  refine ⟨hinv, fun exec => ?_⟩
  rw [Tasks.runAll, runDownloadList_eq t.profiles exec t.download hinv]
  rfl

/-- C2 witness: the invariant and totality of `runAll` at the concrete
resolved source `srcGood`. -/
theorem resolved_tasks_lookup_total_witness :
    (∀ d ∈ tasksGood.download, ∀ n ∈ d.profile,
      (hmGet tasksGood.profiles n).isSome) ∧
    ∀ exec, (tasksGood.runAll exec).isSome :=
  resolved_tasks_lookup_total srcGood tasksGood (by rfl)

/-- C3: a `TaskSource` with two profiles sharing a name is rejected whole:
`Tasks.tryFrom` returns a `duplicateProfile` error carrying a name that
occurs at least twice among the declared profile names, and produces no
`Tasks` value. -/
theorem duplicate_profile_rejected (value : TaskSource)
    (h : ¬ (value.profile.map Profile.name).Nodup) :
    ∃ n, Tasks.tryFrom value = .error (.duplicateProfile n) ∧
      2 ≤ (value.profile.map Profile.name).count n := by
  cases hbp : buildProfiles value.profile [] with
  | ok m =>
    have hnd := buildProfiles_ok_nodup value.profile [] m (by simp [hmKeys]) hbp
    simp only [hmKeys, List.map_nil, List.nil_append] at hnd
    exact absurd hnd h
  | error e =>
    obtain ⟨n, he, hcount⟩ := buildProfiles_error_shape value.profile [] e hbp
    subst he
    refine ⟨n, ?_, ?_⟩
    · simp only [Tasks.tryFrom, hbp]
    · simpa [hmKeys] using hcount

/-- C3 witness: rejection of the concrete duplicate source `srcDup`. -/
theorem duplicate_profile_rejected_witness :
    ∃ n, Tasks.tryFrom srcDup = .error (.duplicateProfile n) ∧
      2 ≤ (srcDup.profile.map Profile.name).count n :=
  duplicate_profile_rejected srcDup (by decide)

/-- C4 counterexample: a source whose download references the undeclared
profile "b" but which also declares "a" twice is rejected with the
`duplicateProfile` error, not with an error naming the offending download
and the missing profile name — refuting the claim as universally stated. -/
theorem dangling_ref_error_counterexample :
    ("b" ∈ downloadDangling.profile ∧
      "b" ∉ srcDupDangling.profile.map Profile.name) ∧
    Tasks.tryFrom srcDupDangling = .error (.duplicateProfile "a") ∧
    isUnknownRefError (Tasks.tryFrom srcDupDangling) = false :=
  ⟨⟨by decide, by decide⟩, by rfl, by rfl⟩

/-- C4 (amended): for every `TaskSource` with no duplicate profile names in
which some download's profile list contains a name not declared among the
source's profiles, `Tasks.tryFrom` fails with `unknownProfileReference`
naming an offending download and the missing profile name, and produces no
`Tasks` value. -/
theorem dangling_ref_rejected (value : TaskSource)
    (hnodup : (value.profile.map Profile.name).Nodup)
    (hdangling : ∃ d ∈ value.download, ∃ n ∈ d.profile,
      n ∉ value.profile.map Profile.name) :
    ∃ pn dn, Tasks.tryFrom value = .error (.unknownProfileReference pn dn) ∧
      ∃ d ∈ value.download, d.name = dn ∧ pn ∈ d.profile ∧
        pn ∉ value.profile.map Profile.name := by
  obtain ⟨m, hm⟩ :=
    buildProfiles_ok_of_nodup value.profile [] (by simpa [hmKeys] using hnodup)
  have hkeys : hmKeys m = value.profile.map Profile.name := by
    simpa [hmKeys] using buildProfiles_ok_keys value.profile [] m hm
  obtain ⟨d, hd, n, hn, hnot⟩ := hdangling
  cases hcr : checkRefs m value.download with
  | ok u =>
    cases u
    have hsome := (checkRefs_ok_iff m value.download).mp hcr d hd n hn
    rw [hmGet_isSome_iff, hkeys] at hsome
    exact absurd hsome hnot
  | error e =>
    obtain ⟨d2, hd2, n2, he, hmem2, hg2⟩ :=
      checkRefs_error_shape m value.download e hcr
    subst he
    refine ⟨n2, d2.name, ?_, d2, hd2, rfl, hmem2, ?_⟩
    · simp only [Tasks.tryFrom, hm, hcr]
    · rw [← hkeys]
      exact (hmGet_eq_none_iff m n2).mp hg2

/-- C4 witness: the amended statement at the concrete dangling source
`srcDangling`. -/
theorem dangling_ref_rejected_witness :
    ∃ pn dn,
      Tasks.tryFrom srcDangling = .error (.unknownProfileReference pn dn) ∧
      ∃ d ∈ srcDangling.download, d.name = dn ∧ pn ∈ d.profile ∧
        pn ∉ srcDangling.profile.map Profile.name :=
  dangling_ref_rejected srcDangling (by decide) (by decide)

/-- C5: for every `TaskSource` with no duplicate profile names and with
every referenced profile declared, `Tasks.tryFrom` succeeds, the key list
of the resulting profile map is exactly the declared profile name list
(hence the key set is exactly the declared names), and the download list is
the source's download list unchanged. -/
theorem valid_source_resolves (value : TaskSource)
    (hnodup : (value.profile.map Profile.name).Nodup)
    (href : ∀ d ∈ value.download, ∀ n ∈ d.profile,
      n ∈ value.profile.map Profile.name) :
    ∃ t, Tasks.tryFrom value = .ok t ∧
      hmKeys t.profiles = value.profile.map Profile.name ∧
      t.download = value.download := by
  obtain ⟨m, hm⟩ :=
    buildProfiles_ok_of_nodup value.profile [] (by simpa [hmKeys] using hnodup)
  have hkeys : hmKeys m = value.profile.map Profile.name := by
    simpa [hmKeys] using buildProfiles_ok_keys value.profile [] m hm
  have hcr : checkRefs m value.download = .ok () := by
    rw [checkRefs_ok_iff]
    intro d hd n hn
    rw [hmGet_isSome_iff, hkeys]
    exact href d hd n hn
  refine ⟨{ profiles := m, download := value.download }, ?_, hkeys, rfl⟩
  simp only [Tasks.tryFrom, hm, hcr]

/-- C5 witness: successful resolution of the concrete source `srcGood`. -/
theorem valid_source_resolves_witness :
    ∃ t, Tasks.tryFrom srcGood = .ok t ∧
      hmKeys t.profiles = srcGood.profile.map Profile.name ∧
      t.download = srcGood.download :=
  valid_source_resolves srcGood (by decide) (by decide)

/-- C6: the executor's argument list is, in this fixed order, the archive
flag pair (present exactly when `profile.archive` is set, with the path
`archives/{download.name}-{profile.name}.txt`), then `profile.args`, then
`download.url`; the binary is `bin_name`. The last conjunct instantiates
the archive path at `download.name = "news"` and `profile.name = "audio"`:
it is exactly `archives/news-audio.txt`, for any other field values. -/
theorem download_command_args (bin_name : String) (d : Download)
    (p : Profile) :
    (downloadCommand bin_name d p).bin = bin_name ∧
    (downloadCommand bin_name d p).args =
      (if p.archive then
        ["--download-archive",
          "archives/" ++ d.name ++ "-" ++ p.name ++ ".txt"]
      else []) ++ p.args ++ d.url ∧
    archivePath { d with name := "news" } { p with name := "audio" } =
      "archives/news-audio.txt" := by
  refine ⟨?_, ?_, rfl⟩
  · by_cases h : p.archive <;>
      simp [downloadCommand, Command.new, Command.addArgs, h]
  · by_cases h : p.archive <;>
      simp [downloadCommand, Command.new, Command.addArgs, archivePath, h]

/-- C6 witness: the fully evaluated argument list for the sample download
and archive-enabled profile. -/
theorem download_command_args_witness :
    (downloadCommand "yt-dlp" downloadNews profileAudio).args =
      ["--download-archive", "archives/news-audio.txt", "-x",
        "https://example.com/feed"] := by
  rw [(download_command_args "yt-dlp" downloadNews profileAudio).2.1]
  rfl

/-- C7: for every resolved `Tasks` value and every exec oracle, `run_all`
returns (never panics), its job trace is exactly all `(download, profile)`
pairs of the download list in declaration order — independent of which
jobs fail, so a failing job never stops iteration — and its error
accumulator contains exactly one entry per failing job, in job order,
contextualised with that download's and profile's names. -/
theorem run_all_isolates_failures (value : TaskSource) (t : Tasks)
    (h : Tasks.tryFrom value = .ok t)
    (exec : Download → Profile → ExecOutcome) :
    t.runAll exec = some (expectedJobs t, expectedErrors t exec) := by
  obtain ⟨_, hcr, hdl⟩ := tryFrom_ok_elim value t h
  have hinv : ∀ d ∈ t.download, ∀ n ∈ d.profile,
      (hmGet t.profiles n).isSome := by
    rw [hdl]
    exact (checkRefs_ok_iff _ _).mp hcr
  rw [Tasks.runAll, runDownloadList_eq t.profiles exec t.download hinv]
  rfl

/-- C7 witness: with two jobs where the first (audio) fails with exit
status 1, both jobs are still executed in order and exactly one
contextualised error is recorded. -/
theorem run_all_isolates_failures_witness :
    tasksGood.runAll execFailAudio =
      some ([(downloadNews, profileAudio), (downloadNews, profileVideo)],
        [{ downloadName := "news", profileName := "audio",
           error := .nonZeroExit 1 }]) := by
  rw [run_all_isolates_failures srcGood tasksGood (by rfl) execFailAudio]
  rfl

/-- C8: the remote-job loop processes every URL independently: the kept
job sets are exactly the successfully fetched-and-resolved ones, paired
with their source URLs in declaration order, and the log contains exactly
one `(url, error)` entry per failing URL (fetch, body, parse or resolution
failure), also in declaration order; in particular one failing URL never
drops or aborts the others. -/
theorem remote_jobs_independent
    (fetch : String → Except FetchError TaskSource) (urls : List String) :
    (remoteJobs fetch urls).1 =
      urls.filterMap (fun u =>
        match getRemoteJob fetch u with
        | .ok t => some (u, t)
        | .error _ => none) ∧
    (remoteJobs fetch urls).2 =
      urls.filterMap (fun u =>
        match getRemoteJob fetch u with
        | .ok _ => none
        | .error e => some (u, e)) := by
  induction urls with
  | nil => exact ⟨rfl, rfl⟩
  | cons u rest ih =>
    cases hg : getRemoteJob fetch u with
    | ok t => simp [remoteJobs, hg, List.filterMap_cons, ih.1, ih.2]
    | error e => simp [remoteJobs, hg, List.filterMap_cons, ih.1, ih.2]

/-- C8 witness: with a failing first URL and a valid second URL, the second
URL's jobs are kept and exactly one error is logged for the first. -/
theorem remote_jobs_independent_witness :
    (remoteJobs fetchDemo ["http://bad", "http://good"]).1 =
      [("http://good", tasksGood)] ∧
    (remoteJobs fetchDemo ["http://bad", "http://good"]).2 =
      [("http://bad", RemoteError.fetch .parseFailed)] := by
  have h := remote_jobs_independent fetchDemo ["http://bad", "http://good"]
  exact ⟨h.1.trans (by rfl), h.2.trans (by rfl)⟩

/-- C9: for every element type, deserializing a `vec_or_one` field from a
single scalar value yields the same result as from the one-element list of
that value (namely the one-element list), and deserializing it from an
explicitly empty list fails with the parse error. -/
theorem vec_or_one_scalar_eq_singleton (T : Type) (v : T) :
    vec_or_one (SerdeInput.scalar v) = vec_or_one (SerdeInput.seq [v]) ∧
    vec_or_one (SerdeInput.scalar v) = .ok [v] ∧
    vec_or_one (SerdeInput.seq ([] : List T)) =
      .error "cannot deserialize from an empty sequence" :=
  ⟨rfl, rfl, rfl⟩

/-- C9 witness: the scalar-or-list normalisation at a concrete string. -/
theorem vec_or_one_scalar_eq_singleton_witness :
    vec_or_one (SerdeInput.scalar "https://example.com") =
      vec_or_one (SerdeInput.seq ["https://example.com"]) ∧
    vec_or_one (SerdeInput.scalar "https://example.com") =
      .ok ["https://example.com"] ∧
    vec_or_one (SerdeInput.seq ([] : List String)) =
      .error "cannot deserialize from an empty sequence" :=
  vec_or_one_scalar_eq_singleton String "https://example.com"

/-- C10: omitting the `remote_job` key yields the empty list via the serde
default, while an explicitly present field goes through `vec_or_one`, so an
explicitly empty list is a parse error and no present field can produce the
empty list: the empty remote-job set is reachable only by omission. -/
theorem remote_job_empty_only_by_omission :
    parseRemoteJobField none = .ok [] ∧
    parseRemoteJobField (some (SerdeInput.seq [])) =
      .error "cannot deserialize from an empty sequence" ∧
    ∀ input, parseRemoteJobField (some input) ≠ .ok [] := by
  refine ⟨rfl, rfl, ?_⟩
  intro input h
  cases input with
  | scalar v =>
    simp [parseRemoteJobField, vec_or_one, deserializeEVecOrOne,
      vecOrOneCore] at h
  | seq l =>
    cases l with
    | nil =>
      simp [parseRemoteJobField, vec_or_one, deserializeEVecOrOne,
        vecOrOneCore] at h
    | cons a rest =>
      simp [parseRemoteJobField, vec_or_one, deserializeEVecOrOne,
        vecOrOneCore] at h

/-- C10 witness: a present non-empty field never yields the empty list, at
a concrete input. -/
theorem remote_job_empty_only_by_omission_witness :
    parseRemoteJobField (some (SerdeInput.seq ["http://jobs"])) ≠ .ok [] :=
  remote_job_empty_only_by_omission.2.2 (SerdeInput.seq ["http://jobs"])

end YtDlpTasker
